import Mathlib

/-!
Verification of the el-sidecar event hub (src/scripts/el-sidecar.py).

The development shallowly embeds the store layer (SQLite tables `events`,
`responses`, `ledger`, `watches` together with the SQL statements executed
against them) and the HTTP handler layer of the sidecar.  Machine integers
are modelled as `Nat`/`Int`; wall-clock timestamps (`time.time()`) are
modelled as `Nat` values supplied by the caller; SQL `NULL` becomes
`Option`; Python booleans become `Bool`.  SQL `ORDER BY` is modelled with
`List.insertionSort`, which is a stable sort — since every result set here
is keyed by the unique `id` column the order is uniquely determined, so the
choice of algorithm is irrelevant.
-/

set_option linter.unusedVariables false

/-- A decoded JSON value (the result of Python `json.loads`).  Numbers are
modelled as integers — no claim depends on fractional numbers. -/
inductive JValue where
  | null
  | bool (b : Bool)
  | num (n : Int)
  | str (s : String)
  | arr (xs : List JValue)
  | obj (fs : List (String × JValue))
deriving Repr

/-- Python `dict` lookup on the field list of a decoded JSON object.
`json.loads` keeps the last binding for a duplicated key, hence the
reversal. -/
def lookup_last (fs : List (String × JValue)) (k : String) : Option JValue :=
  (fs.reverse.find? (fun kv => kv.1 == k)).map (fun kv => kv.2)

mutual
/-- Python `str()` applied to a decoded JSON value (used by the
`url_verification` handshake to echo the `challenge` field). -/
def py_str : JValue → String
  | JValue.null => "None"
  | JValue.bool b => if b then "True" else "False"
  | JValue.num n => toString n
  | JValue.str s => s
  | JValue.arr xs => "[" ++ py_str_list xs ++ "]"
  | JValue.obj fs => "\x7b" ++ py_str_fields fs ++ "\x7d"

def py_str_list : List JValue → String
  | [] => ""
  | [x] => py_str x
  | x :: xs => py_str x ++ ", " ++ py_str_list xs

def py_str_fields : List (String × JValue) → String
  | [] => ""
  | [kv] => kv.1 ++ ": " ++ py_str kv.2
  | kv :: kvs => kv.1 ++ ": " ++ py_str kv.2 ++ ", " ++ py_str_fields kvs
end

/- ------------------------------------------------------------------ -/
/- Rows of the four tables created in `_get_db`.                       -/
/- ------------------------------------------------------------------ -/

/-- A row of the `events` table.  `ts = ""` models both SQL `NULL` and the
empty string (the partial unique index excludes both, and Python truthiness
treats both as falsy). -/
structure EventRow where
  id : Nat
  source : String
  ts : String
  user_id : String
  text : String
  channel : String
  etype : String
  thread_ts : String
  bot_id : String
  metadata : Option String
  associations : Option String
  picked_up : Bool
  received_at : Nat
deriving Repr, DecidableEq

/-- A row of the `responses` table. -/
structure RespRow where
  id : Nat
  event_id : Option Nat
  source : String
  text : String
  picked_up : Bool
  created_at : Nat
deriving Repr, DecidableEq

/-- A row of the `ledger` table. -/
structure LedgerRow where
  id : Nat
  agent_id : String
  did : Option String
  entry_type : String
  content : String
  tags : Option String
  signature : Option String
  created_at : Nat
deriving Repr, DecidableEq

/-- A row of the `watches` table. -/
structure WatchRow where
  plugin : String
  url : String
  created_at : Nat
deriving Repr, DecidableEq

/-- The whole SQLite database.  `next_event`/`next_resp`/`next_ledger`
model the `AUTOINCREMENT` counters of the three id columns. -/
structure Store where
  events : List EventRow
  next_event : Nat
  responses : List RespRow
  next_resp : Nat
  ledger : List LedgerRow
  next_ledger : Nat
  watches : List WatchRow
deriving Repr, DecidableEq

/-- A freshly created database (`CREATE TABLE` only). -/
def Store.init : Store := ⟨[], 1, [], 1, [], 1, []⟩

/-- `WHERE source = ?` filters applied only when the Python `source`
argument is truthy; `none` models an absent (or empty, hence falsy)
filter. -/
def matches_src (src : Option String) (s : String) : Bool :=
  match src with
  | none => true
  | some t => s == t

/- ------------------------------------------------------------------ -/
/- Enrichment hooks (insert_event)                                     -/
/- ------------------------------------------------------------------ -/

/-- An enrichment hook: called with the event text and source, it either
returns a payload (`Except.ok`, with `none` for Python `None`) or raises
(`Except.error`). -/
def EnrichFn : Type := String → String → Except String (Option String)

/-- Insert-or-replace into the Python dict that `insert_event` builds. -/
def dict_set (d : List (String × String)) (k v : String) : List (String × String) :=
  if d.any (fun kv => kv.1 == k) then
    d.map (fun kv => if kv.1 == k then (k, v) else kv)
  else
    d ++ [(k, v)]

/-- Python dict `get`. -/
def dict_get (d : List (String × String)) (k : String) : Option String :=
  (d.find? (fun kv => kv.1 == k)).map (fun kv => kv.2)

/-- The enrichment loop of `insert_event`: every registered hook is called
with `(text, source)`; a raising hook is logged and skipped; a `None`
result is dropped; every other result is recorded under the hook's
registration name. -/
def run_enrichments (enr : List (String × EnrichFn)) (text source : String) :
    List (String × String) :=
  enr.foldl
    (fun d ne =>
      match ne.2 text source with
      | Except.ok (some v) => dict_set d ne.1 v
      | Except.ok none => d
      | Except.error _ => d)
    []

/- ------------------------------------------------------------------ -/
/- Store operations                                                    -/
/- ------------------------------------------------------------------ -/

/-- The duplicate test enforced by the partial unique index
`idx_events_source_ts ON events(source, ts) WHERE ts IS NOT NULL AND
ts != ''` (created in `_ensure_indexes`): a conflict arises exactly when
the incoming row has a non-empty `ts` and some stored row carries the same
`(source, ts)` pair. -/
def dup_key (s : Store) (source ts : String) : Bool :=
  ts != "" && s.events.any (fun r => r.source == source && r.ts == ts)

/-- `insert_event` — runs the enrichment hooks, then executes
`INSERT OR IGNORE INTO events ...`.  Only the payload recorded under the
name `"associations"` reaches the `associations` column
(`enrichments.get('associations')` in the source).  Returns
`cursor.rowcount > 0`, i.e. whether a row was stored. -/
def insert_event (enr : List (String × EnrichFn))
    (source : String) (ts : String := "") (user_id : String := "")
    (text : String := "") (channel : String := "") (etype : String := "")
    (thread_ts : String := "") (bot_id : String := "")
    (metadata : Option String := none) (now : Nat := 0) (s : Store) :
    Bool × Store :=
  let associations_json := dict_get (run_enrichments enr text source) "associations"
  if dup_key s source ts then
    (false, s)
  else
    (true,
      { s with
        events := s.events ++
          [{ id := s.next_event, source := source, ts := ts,
             user_id := user_id, text := text, channel := channel,
             etype := etype, thread_ts := thread_ts, bot_id := bot_id,
             metadata := metadata, associations := associations_json,
             picked_up := false, received_at := now }],
        next_event := s.next_event + 1 })

/-- `_insert_raw_event` — the backward-compat path used by the generic
ingest fallback: plain `INSERT` of body text and dumped headers, no
enrichment, no dedup (its `ts` is SQL `NULL`, so the partial index does
not apply). -/
def insert_raw_event (source : String) (headers : Option String)
    (body : String) (now : Nat) (s : Store) : Store :=
  { s with
    events := s.events ++
      [{ id := s.next_event, source := source, ts := "", user_id := "",
         text := body, channel := "", etype := "", thread_ts := "",
         bot_id := "", metadata := headers, associations := none,
         picked_up := false, received_at := now }],
    next_event := s.next_event + 1 }

/-- `_insert_response`. -/
def insert_response (event_id : Option Nat) (text : String)
    (source : String) (now : Nat) (s : Store) : Store :=
  { s with
    responses := s.responses ++
      [{ id := s.next_resp, event_id := event_id, source := source,
         text := text, picked_up := false, created_at := now }],
    next_resp := s.next_resp + 1 }

/-- `_insert_ledger_entry` — returns the new row id (`cursor.lastrowid`). -/
def insert_ledger_entry (agent_id content : String)
    (entry_type : String := "memory") (did : Option String := none)
    (tags : Option String := none) (signature : Option String := none)
    (now : Nat := 0) (s : Store) : Nat × Store :=
  (s.next_ledger,
    { s with
      ledger := s.ledger ++
        [{ id := s.next_ledger, agent_id := agent_id, did := did,
           entry_type := entry_type, content := content, tags := tags,
           signature := signature, created_at := now }],
      next_ledger := s.next_ledger + 1 })

/-- `ORDER BY received_at ASC, id ASC` on the events table. -/
def eventLe (a b : EventRow) : Prop :=
  a.received_at < b.received_at ∨ (a.received_at = b.received_at ∧ a.id ≤ b.id)

instance : DecidableRel eventLe := fun a b => by
  unfold eventLe; exact inferInstance

instance : IsTotal EventRow eventLe :=
  ⟨fun a b => by unfold eventLe; omega⟩

instance : IsTrans EventRow eventLe :=
  ⟨fun a b c => by unfold eventLe; omega⟩

/-- `ORDER BY id` on the responses table. -/
def respLe (a b : RespRow) : Prop := a.id ≤ b.id

instance : DecidableRel respLe := fun a b => by
  unfold respLe; exact inferInstance

instance : IsTotal RespRow respLe :=
  ⟨fun a b => by unfold respLe; omega⟩

instance : IsTrans RespRow respLe :=
  ⟨fun a b c => by unfold respLe; omega⟩

/-- `ORDER BY id ASC` on the ledger table. -/
def ledgerLe (a b : LedgerRow) : Prop := a.id ≤ b.id

instance : DecidableRel ledgerLe := fun a b => by
  unfold ledgerLe; exact inferInstance

instance : IsTotal LedgerRow ledgerLe :=
  ⟨fun a b => by unfold ledgerLe; omega⟩

instance : IsTrans LedgerRow ledgerLe :=
  ⟨fun a b c => by unfold ledgerLe; omega⟩

/-- `_pick_events` — the drain transaction on the events queue:
`SELECT ... WHERE picked_up = 0 [AND source = ?] ORDER BY received_at ASC,
id ASC`, then `UPDATE events SET picked_up = 1 WHERE id IN (...)`, all
under `_db_lock` and committed together.  Returns the selected rows and
the updated store. -/
def pick_events (src : Option String) (s : Store) : List EventRow × Store :=
  let rows := List.insertionSort eventLe
    (s.events.filter (fun r => !r.picked_up && matches_src src r.source))
  let ids := rows.map (fun r => r.id)
  (rows,
    { s with
      events := s.events.map
        (fun r => if r.id ∈ ids then { r with picked_up := true } else r) })

/-- `_pick_responses` — the drain transaction on the responses queue:
`SELECT ... WHERE picked_up = 0 [AND source = ?] ORDER BY id`, then
`UPDATE responses SET picked_up = 1 WHERE id IN (...)`. -/
def pick_responses (src : Option String) (s : Store) : List RespRow × Store :=
  let rows := List.insertionSort respLe
    (s.responses.filter (fun r => !r.picked_up && matches_src src r.source))
  let ids := rows.map (fun r => r.id)
  (rows,
    { s with
      responses := s.responses.map
        (fun r => if r.id ∈ ids then { r with picked_up := true } else r) })

/-- `_pending_count` — `SELECT COUNT(*) FROM events WHERE picked_up = 0
[AND source = ?]`. -/
def pending_count (src : Option String) (s : Store) : Nat :=
  (s.events.filter (fun r => !r.picked_up && matches_src src r.source)).length

/-- The tag filter of `_query_ledger`:
`(',' || tags || ',') LIKE '%,tag,%'`.  A SQL `NULL` tags column never
matches (string concatenation with `NULL` yields `NULL`).  Modelled as a
substring test; `LIKE` wildcard characters inside the tag itself and
ASCII case folding are outside the modelled input space (no claim
exercises them).  `seg_starts`/`seg_contains` implement the substring
test on character lists. -/
def seg_starts (needle hay : List Char) : Bool :=
  match needle, hay with
  | [], _ => true
  | _ :: _, [] => false
  | a :: as, b :: bs => a == b && seg_starts as bs

def seg_contains (needle : List Char) : List Char → Bool
  | [] => seg_starts needle []
  | b :: bs => seg_starts needle (b :: bs) || seg_contains needle bs

def tag_match (tags : Option String) (t : String) : Bool :=
  match tags with
  | none => false
  | some tg =>
      seg_contains ("," ++ t ++ ",").toList ("," ++ tg ++ ",").toList

/-- `_query_ledger` — `SELECT ... FROM ledger WHERE id > ? [AND filters]
ORDER BY id ASC LIMIT ?`.  A negative SQL `LIMIT` means no limit. -/
def query_ledger (since_id : Int) (agent_id : Option String)
    (entry_type : Option String) (tag : Option String) (limit : Int)
    (s : Store) : List LedgerRow :=
  let rows := List.insertionSort ledgerLe
    (s.ledger.filter (fun r =>
      decide ((r.id : Int) > since_id)
      && (match agent_id with | none => true | some a => r.agent_id == a)
      && (match entry_type with | none => true | some t => r.entry_type == t)
      && (match tag with | none => true | some t => tag_match r.tags t)))
  if limit < 0 then rows else rows.take limit.toNat

/-- `_add_watch` — `INSERT OR IGNORE INTO watches ...` with
`UNIQUE(plugin, url)`; returns `cursor.rowcount > 0`. -/
def add_watch (plugin url : String) (now : Nat) (ws : List WatchRow) :
    Bool × List WatchRow :=
  if ws.any (fun w => w.plugin == plugin && w.url == url) then
    (false, ws)
  else
    (true, ws ++ [{ plugin := plugin, url := url, created_at := now }])

/-- `_remove_watch` — `DELETE FROM watches WHERE plugin = ? AND url = ?`;
returns `cursor.rowcount > 0`. -/
def remove_watch (plugin url : String) (ws : List WatchRow) :
    Bool × List WatchRow :=
  (ws.any (fun w => w.plugin == plugin && w.url == url),
   ws.filter (fun w => !(w.plugin == plugin && w.url == url)))

/- ------------------------------------------------------------------ -/
/- Operation traces over the store                                     -/
/- ------------------------------------------------------------------ -/

/-- One store transaction, as serialized by `_db_lock` (the single lock
taken around every store access): the concurrent handler threads give
rise to an arbitrary interleaving, i.e. an arbitrary `List Op`. -/
inductive Op where
  | insEvent (source ts user_id text channel etype thread_ts bot_id : String)
      (metadata : Option String) (now : Nat)
  | insRaw (source : String) (headers : Option String) (body : String) (now : Nat)
  | insResp (event_id : Option Nat) (text source : String) (now : Nat)
  | insLedger (agent_id content entry_type : String)
      (did tags signature : Option String) (now : Nat)
  | pickE (src : Option String)
  | pickR (src : Option String)

/-- Whether an operation is a producer-side insert (no drain). -/
def Op.is_insert : Op → Bool
  | Op.pickE _ => false
  | Op.pickR _ => false
  | _ => true

/-- Run one transaction; also report the event ids and response ids the
transaction returned to its caller (empty for inserts). -/
def step_out (enr : List (String × EnrichFn)) (op : Op) (s : Store) :
    Store × List Nat × List Nat :=
  match op with
  | Op.insEvent source ts user_id text channel etype thread_ts bot_id metadata now =>
      ((insert_event enr source ts user_id text channel etype thread_ts bot_id
          metadata now s).2, [], [])
  | Op.insRaw source headers body now => (insert_raw_event source headers body now s, [], [])
  | Op.insResp event_id text source now => (insert_response event_id text source now s, [], [])
  | Op.insLedger agent_id content entry_type did tags signature now =>
      ((insert_ledger_entry agent_id content entry_type did tags signature now s).2, [], [])
  | Op.pickE src =>
      let p := pick_events src s
      (p.2, p.1.map (fun r => r.id), [])
  | Op.pickR src =>
      let p := pick_responses src s
      (p.2, [], p.1.map (fun r => r.id))

/-- The store after one transaction. -/
def step_s (enr : List (String × EnrichFn)) (op : Op) (s : Store) : Store :=
  (step_out enr op s).1

/-- Run a whole interleaving. -/
def run_s (enr : List (String × EnrichFn)) (ops : List Op) (s : Store) : Store :=
  ops.foldl (fun st op => step_s enr op st) s

/-- Run a whole interleaving, accumulating every event id and response id
any drain returned. -/
def run_acc (enr : List (String × EnrichFn)) : List Op → Store → Store × List Nat × List Nat
  | [], s => (s, [], [])
  | op :: ops, s =>
      let p := step_out enr op s
      let q := run_acc enr ops p.1
      (q.1, p.2.1 ++ q.2.1, p.2.2 ++ q.2.2)

/-- `id` is carried by some picked-up row of the events table. -/
def picked_in (s : Store) (i : Nat) : Bool :=
  s.events.any (fun r => r.id == i && r.picked_up)

/-- `id` is carried by some picked-up row of the responses table. -/
def rpicked_in (s : Store) (i : Nat) : Bool :=
  s.responses.any (fun r => r.id == i && r.picked_up)

/-- The event ids present in the store. -/
def event_ids (s : Store) : List Nat := s.events.map (fun r => r.id)

/-- The response ids present in the store. -/
def resp_ids (s : Store) : List Nat := s.responses.map (fun r => r.id)

/-- Well-formedness maintained by the store: ids are unique (`PRIMARY
KEY`) and below the autoincrement counter. -/
def StoreWF (s : Store) : Prop :=
  (event_ids s).Nodup ∧ (∀ r ∈ s.events, r.id < s.next_event) ∧
  (resp_ids s).Nodup ∧ (∀ r ∈ s.responses, r.id < s.next_resp)

/-- `s'` is reachable from `s` by producer inserts alone (the situation
during the 500 ms burst-collection sleep of `_handle_events` when no
competing drain runs). -/
def insert_reachable (enr : List (String × EnrichFn)) (s s' : Store) : Prop :=
  ∃ ops : List Op, (∀ op ∈ ops, op.is_insert = true) ∧ run_s enr ops s = s'

/- ------------------------------------------------------------------ -/
/- HTTP layer                                                          -/
/- ------------------------------------------------------------------ -/

/-- An HTTP response produced by a built-in handler.  `crash` marks an
uncaught Python exception inside the handler, which `do_POST`
converts into a bare 500. -/
inductive HResp where
  | plain (status : Nat) (body : String)
  | jsonR (status : Nat) (body : JValue)
  | emptyAck
  | crash
deriving Repr

/-- String-field extraction `data.get(k, dflt).strip()` used by the
voice/respond/ledger/watch handlers: an absent key yields the default, a
JSON string is taken as is, anything else makes `.strip()` raise
(`none`). -/
def j_str_or (fs : List (String × JValue)) (k dflt : String) : Option String :=
  match lookup_last fs k with
  | none => some dflt
  | some (JValue.str s) => some s
  | some _ => none

/-- Optional-text extraction `data.get(k)` for columns bound as SQL
text-or-`NULL` (`did`, `tags`, `signature`): absent or JSON null becomes
`NULL`; non-string non-null JSON values are outside the modelled input
space (no claim exercises them). -/
def j_opt_str (fs : List (String × JValue)) (k : String) : Option (Option String) :=
  match lookup_last fs k with
  | none => some none
  | some JValue.null => some none
  | some (JValue.str s) => some (some s)
  | some _ => none

/-- Extraction of `data.get('event_id')` (bound to the INTEGER
`event_id` column).  Non-integer values are outside the modelled input
space. -/
def j_event_id (fs : List (String × JValue)) : Option Nat :=
  match lookup_last fs "event_id" with
  | some (JValue.num n) => (if n < 0 then none else some n.toNat)
  | _ => none

/-- The `type == 'url_verification'` test of `_handle_ingest`: Python
`==` between a JSON value and a `str` holds only for an equal string. -/
def is_url_verification (v : Option JValue) : Bool :=
  match v with
  | some (JValue.str s) => s == "url_verification"
  | _ => false

/-- The `challenge` echo `str(data.get('challenge', ''))`. -/
def challenge_text (fs : List (String × JValue)) : String :=
  py_str ((lookup_last fs "challenge").getD (JValue.str ""))

/-- Hub-level state threaded through the HTTP handlers: the store plus a
log of watch-handler invocations (each entry is the `(plugin, url)` of
one call of the extension's add respectively remove function — the
functions themselves only have external effects). -/
structure Hub where
  store : Store
  add_calls : List (String × String)
  remove_calls : List (String × String)
deriving Repr

/-- A fresh hub over a fresh database. -/
def Hub.init : Hub := ⟨Store.init, [], []⟩

/-- `_handle_ingest` — the generic `POST /<source>` fallback.  `body` is
the result of `json.loads` on the raw bytes (`none` when undecodable);
`raw` is the decoded body text; `headers` is the dumped header dict.  The
`url_verification` handshake is answered as plain text before — and
instead of — any store write; every other body is acknowledged with an
empty 200 and stored raw. -/
def handle_ingest (source : String) (body : Option JValue) (raw : String)
    (headers : Option String) (now : Nat) (hub : Hub) : HResp × Hub :=
  match body with
  | some (JValue.obj fs) =>
      if is_url_verification (lookup_last fs "type") then
        (HResp.plain 200 (challenge_text fs), hub)
      else
        (HResp.emptyAck,
          { hub with store := insert_raw_event source headers raw now hub.store })
  | _ =>
      (HResp.emptyAck,
        { hub with store := insert_raw_event source headers raw now hub.store })

/-- Python `str.strip()` with no argument: drop leading and trailing
whitespace.  (The exact Python whitespace set is slightly larger than
`Char.isWhitespace`; the difference is outside the modelled input
space.) -/
def py_strip (s : String) : String :=
  String.mk (((s.toList.dropWhile Char.isWhitespace).reverse.dropWhile
    Char.isWhitespace).reverse)

/-- `_handle_voice_event` — `POST /voice`.  Requires a JSON body with a
non-empty (stripped) `text`; the source defaults to `"voice"`.  Inserts
through `insert_event` (running the enrichment hooks) and answers
`{"ok": true}`. -/
def handle_voice_event (enr : List (String × EnrichFn)) (body : Option JValue)
    (now : Nat) (hub : Hub) : HResp × Hub :=
  match body with
  | none => (HResp.jsonR 400 (JValue.obj [("error", JValue.str "invalid json")]), hub)
  | some (JValue.obj fs) =>
      match j_str_or fs "text" "" with
      | none => (HResp.crash, hub)
      | some t =>
          let text := py_strip t
          if text == "" then
            (HResp.jsonR 400 (JValue.obj [("error", JValue.str "empty text")]), hub)
          else
            match j_str_or fs "source" "voice" with
            | none => (HResp.crash, hub)
            | some source =>
                (HResp.jsonR 200 (JValue.obj [("ok", JValue.bool true)]),
                 { hub with
                     store := (insert_event enr source "" "" text "" "" "" ""
                       none now hub.store).2 })
  | some _ => (HResp.crash, hub)

/-- `_handle_respond` — `POST /respond`.  Requires a non-empty (stripped)
`text`; `event_id` is optional and `source` defaults to `"voice"`. -/
def handle_respond (body : Option JValue) (now : Nat) (hub : Hub) : HResp × Hub :=
  match body with
  | none => (HResp.jsonR 400 (JValue.obj [("error", JValue.str "invalid json")]), hub)
  | some (JValue.obj fs) =>
      match j_str_or fs "text" "" with
      | none => (HResp.crash, hub)
      | some t =>
          let text := py_strip t
          if text == "" then
            (HResp.jsonR 400 (JValue.obj [("error", JValue.str "empty text")]), hub)
          else
            match j_str_or fs "source" "voice" with
            | none => (HResp.crash, hub)
            | some source =>
                (HResp.jsonR 200 (JValue.obj [("ok", JValue.bool true)]),
                 { hub with
                     store := insert_response (j_event_id fs) text source now hub.store })
  | some _ => (HResp.crash, hub)

/-- `_handle_ledger_post` — `POST /ledger`.  Requires non-empty (stripped)
`agent_id` and `content`; `entry_type` defaults to `"memory"`; `did`,
`tags` and `signature` are optional.  Answers with the new row id. -/
def handle_ledger_post (body : Option JValue) (now : Nat) (hub : Hub) : HResp × Hub :=
  match body with
  | none => (HResp.jsonR 400 (JValue.obj [("error", JValue.str "invalid json")]), hub)
  | some (JValue.obj fs) =>
      match j_str_or fs "agent_id" "", j_str_or fs "content" "" with
      | some a, some c =>
          let agent_id := py_strip a
          let content := py_strip c
          if agent_id == "" || content == "" then
            (HResp.jsonR 400
              (JValue.obj [("error", JValue.str "agent_id and content are required")]), hub)
          else
            match j_str_or fs "entry_type" "memory", j_opt_str fs "did",
                j_opt_str fs "tags", j_opt_str fs "signature" with
            | some et, some did, some tags, some sg =>
                let p := insert_ledger_entry agent_id content (py_strip et) did tags sg now hub.store
                (HResp.jsonR 200
                  (JValue.obj [("ok", JValue.bool true),
                               ("id", JValue.num (Int.ofNat p.1))]),
                 { hub with store := p.2 })
            | _, _, _, _ => (HResp.crash, hub)
      | _, _ => (HResp.crash, hub)
  | some _ => (HResp.crash, hub)

/-- `_handle_watch_post` — `POST /watch`.  Validates the stripped
`plugin`/`url` fields, rejects a plugin with no registered watch handler
with a 404, inserts the watch, and calls the plugin's add handler only
when the row was newly inserted.  `handlers` lists the plugins present in
`_plugin_watch_handlers`. -/
def handle_watch_post (handlers : List String) (body : Option JValue)
    (now : Nat) (hub : Hub) : HResp × Hub :=
  match body with
  | none => (HResp.jsonR 400 (JValue.obj [("error", JValue.str "invalid json")]), hub)
  | some (JValue.obj fs) =>
      match j_str_or fs "plugin" "", j_str_or fs "url" "" with
      | some p, some u =>
          let plugin := py_strip p
          let url := py_strip u
          if plugin == "" || url == "" then
            (HResp.jsonR 400
              (JValue.obj [("error", JValue.str "plugin and url are required")]), hub)
          else if plugin ∉ handlers then
            (HResp.jsonR 404
              (JValue.obj [("error",
                JValue.str ("no watch handler for plugin " ++ plugin))]), hub)
          else
            let aw := add_watch plugin url now hub.store.watches
            (HResp.jsonR 200
              (JValue.obj [("ok", JValue.bool true), ("added", JValue.bool aw.1)]),
             { hub with
                 store := { hub.store with watches := aw.2 },
                 add_calls :=
                   if aw.1 then hub.add_calls ++ [(plugin, url)] else hub.add_calls })
      | _, _ => (HResp.crash, hub)
  | some _ => (HResp.crash, hub)

/-- `_handle_watch_delete` — `DELETE /watch`.  Deletes the watch row and
calls the plugin's remove handler only when a row was actually deleted
and the plugin has a registered handler. -/
def handle_watch_delete (handlers : List String) (body : Option JValue)
    (hub : Hub) : HResp × Hub :=
  match body with
  | none => (HResp.jsonR 400 (JValue.obj [("error", JValue.str "invalid json")]), hub)
  | some (JValue.obj fs) =>
      match j_str_or fs "plugin" "", j_str_or fs "url" "" with
      | some p, some u =>
          let plugin := py_strip p
          let url := py_strip u
          if plugin == "" || url == "" then
            (HResp.jsonR 400
              (JValue.obj [("error", JValue.str "plugin and url are required")]), hub)
          else
            let rw := remove_watch plugin url hub.store.watches
            (HResp.jsonR 200
              (JValue.obj [("ok", JValue.bool true), ("removed", JValue.bool rw.1)]),
             { hub with
                 store := { hub.store with watches := rw.2 },
                 remove_calls :=
                   if rw.1 && plugin ∈ handlers then
                     hub.remove_calls ++ [(plugin, url)]
                   else hub.remove_calls })
      | _, _ => (HResp.crash, hub)
  | some _ => (HResp.crash, hub)

/-- `source = path.lstrip('/').split('/')[0] if path.lstrip('/') else
'unknown'` of `do_POST`. -/
def source_of_path (path : String) : String :=
  let stripped := path.toList.dropWhile (fun c => c == '/')
  if stripped.isEmpty then "unknown"
  else String.mk (stripped.takeWhile (fun c => c != '/'))

/-- `do_POST` — the built-in POST dispatcher (after the plugin-route
lookup, which no claim exercises): `/voice`, `/respond`, `/ledger` and
`/watch` go to their handlers, every other path falls back to the
generic raw-event ingest keyed by the path's first segment. -/
def do_post (enr : List (String × EnrichFn)) (handlers : List String)
    (path : String) (body : Option JValue) (raw : String)
    (headers : Option String) (now : Nat) (hub : Hub) : HResp × Hub :=
  if path == "/voice" then handle_voice_event enr body now hub
  else if path == "/respond" then handle_respond body now hub
  else if path == "/ledger" then handle_ledger_post body now hub
  else if path == "/watch" then handle_watch_post handlers body now hub
  else handle_ingest (source_of_path path) body raw headers now hub

/- ------------------------------------------------------------------ -/
/- Long-poll handlers                                                  -/
/- ------------------------------------------------------------------ -/

/-- The burst-collection pause of `_handle_events` (`time.sleep(0.5)`),
in milliseconds. -/
def burst_sleep_ms : Nat := 500

/-- The per-iteration wake timeout of the events wait loop
(`_event_notify.wait(timeout=5.0)`), in seconds. -/
def event_wait_poll_seconds : Nat := 5

/-- The default of `float(params.get('timeout', '120'))` in
`_handle_responses`, in seconds. -/
def responses_default_timeout_seconds : Nat := 120

/-- The effective timeout of `_handle_responses` for an optionally
supplied `timeout` query parameter. -/
def responses_timeout (p : Option Nat) : Nat :=
  p.getD responses_default_timeout_seconds

/-- The fixed deadline of `_handle_ledger_get` (`time.time() + 30.0`),
in seconds. -/
def ledger_wait_seconds : Nat := 30

/-- The events wait loop `while _pending_count(source) == 0: clear; wait`
of `_handle_events`, observing the sequence of store snapshots at its
successive pending checks: it exits at the first snapshot with a pending
matching event and keeps waiting (`none`) while every observed snapshot
is empty — there is no deadline. -/
def find_pending (src : Option String) : List Store → Option Store
  | [] => none
  | s :: rest => if pending_count src s != 0 then some s else find_pending src rest

/-- The bounded retry loop shared by `_handle_responses` and
`_handle_ledger_get`: at most `fuel` one-second waits (the deadline),
each followed by a re-check on the store snapshot of that instant
(`later i` is the snapshot at the i-th re-check); the first non-empty
result is returned, and an exhausted deadline yields `[]`. -/
def poll_until {β : Type} (pick : Store → List β) (later : Nat → Store) :
    Nat → Nat → List β
  | 0, _ => []
  | fuel + 1, i =>
      let r := pick (later i)
      if r.isEmpty then poll_until pick later fuel (i + 1) else r

/-- `_handle_responses` — `GET /responses`.  Drains immediately; when the
drain is empty and `wait=true`, retries under the deadline
`responses_timeout timeoutParam`, returning `[]` if the deadline elapses.
The store snapshots seen by the retries are `later 0, later 1, ...`; the
drains' mark-as-picked side effects happen on those snapshots and are not
re-modelled here (the returned batch is what the claim is about). -/
def handle_responses (wait : Bool) (timeoutParam : Option Nat)
    (src : Option String) (s : Store) (later : Nat → Store) : List RespRow :=
  let first := (pick_responses src s).1
  if !first.isEmpty || !wait then first
  else poll_until (fun st => (pick_responses src st).1) later
    (responses_timeout timeoutParam) 0

/-- `_handle_ledger_get` — `GET /ledger`.  Queries immediately; when the
result is empty and `wait=true`, retries under the fixed 30-second
deadline, returning `[]` if it elapses. -/
def handle_ledger_get (since_id : Int) (agent_id entry_type tag : Option String)
    (limit : Int) (wait : Bool) (s : Store) (later : Nat → Store) : List LedgerRow :=
  let first := query_ledger since_id agent_id entry_type tag limit s
  if !first.isEmpty || !wait then first
  else poll_until (fun st => query_ledger since_id agent_id entry_type tag limit st)
    later ledger_wait_seconds 0

/- ------------------------------------------------------------------ -/
/- Drained-event serialization (_pick_events row → JSON dict)          -/
/- ------------------------------------------------------------------ -/

/-- One conditionally present field of the drained-event dict. -/
def opt_field (cond : Bool) (k : String) (v : JValue) : List (String × JValue) :=
  if cond then [(k, v)] else []

/-- One field parsed from a stored JSON string (`associations`,
`metadata`): present only when the column is non-empty and `json.loads`
succeeds (`parse` models `json.loads`). -/
def parsed_field (parse : String → Option JValue) (k : String)
    (v : Option String) : List (String × JValue) :=
  match v with
  | none => []
  | some a =>
      if a == "" then []
      else
        match parse a with
        | some j => [(k, j)]
        | none => []

/-- The dict `_pick_events` builds for one drained row: truthy columns
are copied, and the store-assigned `id` and `created_at` are attached
exactly when the row has no `ts`. -/
def row_to_evt (parse : String → Option JValue) (r : EventRow) :
    List (String × JValue) :=
  [("source", JValue.str r.source)]
  ++ opt_field (r.ts != "") "ts" (JValue.str r.ts)
  ++ opt_field (r.user_id != "") "user" (JValue.str r.user_id)
  ++ opt_field (r.text != "") "text" (JValue.str r.text)
  ++ opt_field (r.channel != "") "channel" (JValue.str r.channel)
  ++ opt_field (r.etype != "") "type" (JValue.str r.etype)
  ++ opt_field (r.thread_ts != "") "thread_ts" (JValue.str r.thread_ts)
  ++ opt_field (r.bot_id != "") "bot_id" (JValue.str r.bot_id)
  ++ opt_field (r.ts == "") "id" (JValue.num (Int.ofNat r.id))
  ++ opt_field (r.ts == "") "created_at" (JValue.num (Int.ofNat r.received_at))
  ++ parsed_field parse "associations" r.associations
  ++ parsed_field parse "metadata" r.metadata

/-- Key membership in a built dict. -/
def has_key (k : String) (d : List (String × JValue)) : Bool :=
  d.any (fun kv => kv.1 == k)

/- ------------------------------------------------------------------ -/
/- Helper lemmas                                                       -/
/- ------------------------------------------------------------------ -/

theorem has_key_append (k : String) (a b : List (String × JValue)) :
    has_key k (a ++ b) = (has_key k a || has_key k b) := by
  simp [has_key]

theorem has_key_cons (k : String) (kv : String × JValue) (rest : List (String × JValue)) :
    has_key k (kv :: rest) = ((kv.1 == k) || has_key k rest) := by
  simp [has_key]

theorem has_key_opt_field (k k' : String) (c : Bool) (v : JValue) :
    has_key k (opt_field c k' v) = (c && (k' == k)) := by
  cases c <;> simp [has_key, opt_field]

theorem has_key_parsed_field (parse : String → Option JValue) (k k' : String)
    (v : Option String) (h : (k' == k) = false) :
    has_key k (parsed_field parse k' v) = false := by
  cases v with
  | none => simp [has_key, parsed_field]
  | some a =>
      unfold parsed_field
      by_cases ha : a == ""
      · simp [ha, has_key]
      · simp only [ha]
        cases parse a <;> simp [has_key, h]

/-- The number of stored events carrying a given `(source, ts)` key. -/
def count_key (s : Store) (source ts : String) : Nat :=
  (s.events.filter (fun r => r.source == source && r.ts == ts)).length

/-- Bundles the `insert_event` arguments that dedup does not look at. -/
structure EvArgs where
  user_id : String := ""
  text : String := ""
  channel : String := ""
  etype : String := ""
  thread_ts : String := ""
  bot_id : String := ""
  metadata : Option String := none
  now : Nat := 0

/-- `insert_event` with the dedup-irrelevant arguments bundled. -/
def insert_event_a (enr : List (String × EnrichFn)) (source ts : String)
    (a : EvArgs) (s : Store) : Bool × Store :=
  insert_event enr source ts a.user_id a.text a.channel a.etype a.thread_ts
    a.bot_id a.metadata a.now s

/- ------------------------------------------------------------------ -/
/- C10                                                                 -/
/- ------------------------------------------------------------------ -/

/-- C10: the JSON object `_pick_events` returns for a drained event
carries the store-assigned `id` and `created_at` fields exactly when the
event's `ts` column is absent/empty; a drained event with a non-empty
`ts` is returned without them. -/
theorem drained_event_id_iff_no_ts (parse : String → Option JValue) (r : EventRow) :
    (has_key "id" (row_to_evt parse r) = true ∧
     has_key "created_at" (row_to_evt parse r) = true) ↔ r.ts = "" := by
  by_cases h : r.ts = "" <;>
    simp [row_to_evt, has_key_cons, has_key_append, has_key_opt_field,
      has_key_parsed_field, h]

/- ------------------------------------------------------------------ -/
/- C2                                                                  -/
/- ------------------------------------------------------------------ -/

theorem count_key_zero_no_dup {s : Store} {source ts : String}
    (h : count_key s source ts = 0) :
    s.events.any (fun r => r.source == source && r.ts == ts) = false := by
  rw [List.any_eq_false]
  intro r hr
  have hf : s.events.filter (fun r => r.source == source && r.ts == ts) = [] :=
    List.length_eq_zero.mp h
  intro hc
  have : r ∈ s.events.filter (fun r => r.source == source && r.ts == ts) :=
    List.mem_filter.mpr ⟨hr, hc⟩
  rw [hf] at this
  exact absurd this (List.not_mem_nil r)

theorem insert_event_a_dup {source ts : String} {s : Store}
    (enr : List (String × EnrichFn)) (a : EvArgs)
    (h : dup_key s source ts = true) :
    insert_event_a enr source ts a s = (false, s) := by
  simp [insert_event_a, insert_event, h]

theorem insert_event_a_fresh {source ts : String} {s : Store}
    (enr : List (String × EnrichFn)) (a : EvArgs)
    (h : dup_key s source ts = false) :
    insert_event_a enr source ts a s =
      (true,
        { s with
          events := s.events ++
            [{ id := s.next_event, source := source, ts := ts,
               user_id := a.user_id, text := a.text, channel := a.channel,
               etype := a.etype, thread_ts := a.thread_ts, bot_id := a.bot_id,
               metadata := a.metadata,
               associations := dict_get (run_enrichments enr a.text source) "associations",
               picked_up := false, received_at := a.now }],
          next_event := s.next_event + 1 }) := by
  simp [insert_event_a, insert_event, h]

/-- C2: two `insert_event` calls carrying the same non-absent
`(source, ts)` key store exactly one row — the first call inserts and
returns `true`, the second is silently ignored by the
`INSERT OR IGNORE` against the partial unique index and returns `false`;
with an absent (empty) `ts` dedup is disabled and both calls store a
row. -/
theorem insert_event_dedup :
    (∀ (enr1 enr2 : List (String × EnrichFn)) (source ts : String)
        (a1 a2 : EvArgs) (s : Store),
      ts ≠ "" → count_key s source ts = 0 →
      (insert_event_a enr1 source ts a1 s).1 = true ∧
      (insert_event_a enr2 source ts a2 (insert_event_a enr1 source ts a1 s).2).1
        = false ∧
      count_key (insert_event_a enr2 source ts a2
        (insert_event_a enr1 source ts a1 s).2).2 source ts = 1 ∧
      (insert_event_a enr2 source ts a2
        (insert_event_a enr1 source ts a1 s).2).2.events.length
        = s.events.length + 1)
    ∧ (∀ (enr1 enr2 : List (String × EnrichFn)) (source : String)
        (a1 a2 : EvArgs) (s : Store),
      (insert_event_a enr1 source "" a1 s).1 = true ∧
      (insert_event_a enr2 source "" a2 (insert_event_a enr1 source "" a1 s).2).1
        = true ∧
      (insert_event_a enr2 source "" a2
        (insert_event_a enr1 source "" a1 s).2).2.events.length
        = s.events.length + 2) := by
  constructor
  · intro enr1 enr2 source ts a1 a2 s hts hcnt
    have hany := count_key_zero_no_dup hcnt
    have hdup1 : dup_key s source ts = false := by
      simp [dup_key, hany]
    rw [insert_event_a_fresh enr1 a1 hdup1]
    have hdup2 : dup_key
        ({ s with
           events := s.events ++
             [{ id := s.next_event, source := source, ts := ts,
                user_id := a1.user_id, text := a1.text, channel := a1.channel,
                etype := a1.etype, thread_ts := a1.thread_ts, bot_id := a1.bot_id,
                metadata := a1.metadata,
                associations := dict_get (run_enrichments enr1 a1.text source) "associations",
                picked_up := false, received_at := a1.now }],
           next_event := s.next_event + 1 } : Store) source ts = true := by
      simp [dup_key, List.any_append, hts]
    rw [insert_event_a_dup enr2 a2 hdup2]
    have hf : s.events.filter (fun r => r.source == source && r.ts == ts) = [] :=
      List.length_eq_zero.mp hcnt
    refine ⟨rfl, rfl, ?_, by simp⟩
    simp [count_key, List.filter_append, hf]
  · intro enr1 enr2 source a1 a2 s
    have hd : ∀ s' : Store, dup_key s' source "" = false := by
      intro s'; simp [dup_key]
    rw [insert_event_a_fresh enr1 a1 (hd s)]
    rw [insert_event_a_fresh enr2 a2 (hd _)]
    simp

/-- Witness for C2 at a concrete input: a fresh store, source `"slack"`,
timestamp `"1700000000.1"`. -/
theorem insert_event_dedup_witness :
    ("1700000000.1" ≠ "" ∧ count_key Store.init "slack" "1700000000.1" = 0) ∧
    ((insert_event_a [] "slack" "1700000000.1" {} Store.init).1 = true ∧
     (insert_event_a [] "slack" "1700000000.1" {}
        (insert_event_a [] "slack" "1700000000.1" {} Store.init).2).1 = false ∧
     count_key (insert_event_a [] "slack" "1700000000.1" {}
        (insert_event_a [] "slack" "1700000000.1" {} Store.init).2).2
        "slack" "1700000000.1" = 1 ∧
     (insert_event_a [] "slack" "1700000000.1" {}
        (insert_event_a [] "slack" "1700000000.1" {} Store.init).2).2.events.length
        = Store.init.events.length + 1) :=
  ⟨⟨by decide, by rfl⟩,
   insert_event_dedup.1 [] [] "slack" "1700000000.1" {} {} Store.init
     (by decide) (by rfl)⟩

/- ------------------------------------------------------------------ -/
/- C5                                                                  -/
/- ------------------------------------------------------------------ -/

/-- C5 counterexample: a single registered enrichment named `"extra"`
succeeds with payload `"X"`, yet the stored event's `associations`
column is `none` — the payload of a non-failing enrichment function is
NOT merged into the stored associations (only a hook registered under
the literal name `"associations"` ever is). -/
theorem enrichment_payload_not_merged :
    run_enrichments [("extra", fun _ _ => Except.ok (some "X"))] "hello" "slack"
      = [("extra", "X")]
    ∧ ((insert_event [("extra", fun _ _ => Except.ok (some "X"))]
          "slack" "" "" "hello" "" "" "" "" none 7 Store.init).2.events.map
        (fun r => r.associations)) = [none] := by
  constructor
  · rfl
  · rfl

/-- C5 amended: every registered enrichment function is applied to the
event text and source; a raising function is skipped and never aborts the
insert (whether a row is stored does not depend on the enrichment
outcomes at all); and of the successful non-`None` payloads exactly the
one recorded under the name `"associations"` is stored in the event's
`associations` column — all others are discarded. -/
theorem enrichment_isolated_assoc_only :
    (∀ (name : String) (f : EnrichFn) (enr : List (String × EnrichFn))
        (msg text source : String),
      f text source = Except.error msg →
      run_enrichments ((name, f) :: enr) text source = run_enrichments enr text source)
    ∧ (∀ (enr : List (String × EnrichFn)) (source ts : String) (a : EvArgs)
        (s : Store),
      (insert_event_a enr source ts a s).1 = (insert_event_a [] source ts a s).1)
    ∧ (∀ (enr : List (String × EnrichFn)) (source ts : String) (a : EvArgs)
        (s : Store),
      (insert_event_a enr source ts a s).1 = true →
      (insert_event_a enr source ts a s).2.events =
        s.events ++
          [{ id := s.next_event, source := source, ts := ts,
             user_id := a.user_id, text := a.text, channel := a.channel,
             etype := a.etype, thread_ts := a.thread_ts, bot_id := a.bot_id,
             metadata := a.metadata,
             associations := dict_get (run_enrichments enr a.text source) "associations",
             picked_up := false, received_at := a.now }]) := by
  refine ⟨?_, ?_, ?_⟩
  · intro name f enr msg text source hf
    simp [run_enrichments, hf]
  · intro enr source ts a s
    by_cases h : dup_key s source ts = true
    · rw [insert_event_a_dup enr a h, insert_event_a_dup [] a h]
    · rw [insert_event_a_fresh enr a (by simpa using h),
        insert_event_a_fresh [] a (by simpa using h)]
  · intro enr source ts a s h
    by_cases hd : dup_key s source ts = true
    · rw [insert_event_a_dup enr a hd] at h
      exact absurd h (by simp)
    · rw [insert_event_a_fresh enr a (by simpa using hd)]

/-- Witness for the amended C5 at a concrete input: a raising enrichment
is skipped, and the insert of a fresh key still succeeds. -/
theorem enrichment_isolated_assoc_only_witness :
    run_enrichments
        [("boom", fun _ _ => Except.error "boom"), ("extra", fun _ _ => Except.ok (some "X"))]
        "hi" "slack"
      = run_enrichments [("extra", fun _ _ => Except.ok (some "X"))] "hi" "slack"
    ∧ (insert_event_a [("boom", fun _ _ => Except.error "boom")] "slack" "9.9" {} Store.init).1
      = true :=
  ⟨enrichment_isolated_assoc_only.1 "boom" (fun _ _ => Except.error "boom")
      [("extra", fun _ _ => Except.ok (some "X"))] "boom" "hi" "slack" rfl,
   by
     rw [enrichment_isolated_assoc_only.2.1 [("boom", fun _ _ => Except.error "boom")]
       "slack" "9.9" {} Store.init]
     rfl⟩

/- ------------------------------------------------------------------ -/
/- C4                                                                  -/
/- ------------------------------------------------------------------ -/

/-- C4 counterexample: the inspection is NOT performed on every ingest
path.  `POST /voice` ingests events, yet a url_verification body posted
there is rejected with 400 `empty text` — `_handle_voice_event` parses
it as a transcript and never looks at `type`/`challenge` — instead of
being answered with the plain-text challenge echo the claim promises. -/
theorem url_verification_voice_counterexample :
    do_post [] [] "/voice"
        (some (JValue.obj
          [("type", JValue.str "url_verification"), ("challenge", JValue.str "xyz")]))
        "" none 0 Hub.init
      = (HResp.jsonR 400 (JValue.obj [("error", JValue.str "empty text")]), Hub.init)
    ∧ do_post [] [] "/voice"
        (some (JValue.obj
          [("type", JValue.str "url_verification"), ("challenge", JValue.str "xyz")]))
        "" none 0 Hub.init
      ≠ (HResp.plain 200 "xyz", Hub.init) := by
  constructor
  · rfl
  · intro h
    exact HResp.noConfusion (congrArg Prod.fst h)

/-- C4, amended: the url_verification inspection is universal on the
generic-ingest fallback — every POST path other than the dedicated
built-in routes `/voice`, `/respond`, `/ledger`, `/watch` (plugin
routes, which are consulted before the built-ins, are not modelled; no
claim exercises them) — where a decoded JSON object body with
`type == "url_verification"` is answered with the literal `challenge`
value as plain text, no event is stored, and the pending count is
unchanged; the dedicated routes do not perform the inspection (the
`/voice` behaviour is `url_verification_voice_counterexample`). -/
theorem url_verification_short_circuit
    (enr : List (String × EnrichFn)) (handlers : List String) (path : String)
    (fs : List (String × JValue)) (raw : String) (headers : Option String)
    (now : Nat) (hub : Hub)
    (hv : path ≠ "/voice") (hr : path ≠ "/respond")
    (hl : path ≠ "/ledger") (hw : path ≠ "/watch")
    (hty : is_url_verification (lookup_last fs "type") = true) :
    do_post enr handlers path (some (JValue.obj fs)) raw headers now hub
      = (HResp.plain 200 (challenge_text fs), hub)
    ∧ (∀ src, pending_count src
        (do_post enr handlers path (some (JValue.obj fs)) raw headers now hub).2.store
        = pending_count src hub.store) := by
  have h : do_post enr handlers path (some (JValue.obj fs)) raw headers now hub
      = (HResp.plain 200 (challenge_text fs), hub) := by
    simp [do_post, hv, hr, hl, hw, handle_ingest, hty]
  exact ⟨h, fun src => by rw [h]⟩

/-- Witness for C4 at the concrete scenario input: a Slack-shaped body
POSTed to `/slack` is echoed as plain text `"xyz"` and the hub is
untouched. -/
theorem url_verification_short_circuit_witness :
    do_post [] [] "/slack"
        (some (JValue.obj
          [("type", JValue.str "url_verification"), ("challenge", JValue.str "xyz")]))
        "" none 0 Hub.init
      = (HResp.plain 200 "xyz", Hub.init) := by
  have h := url_verification_short_circuit [] [] "/slack"
    [("type", JValue.str "url_verification"), ("challenge", JValue.str "xyz")]
    "" none 0 Hub.init (by decide) (by decide) (by decide) (by decide) (by rfl)
  rw [h.1]
  have : challenge_text
      [("type", JValue.str "url_verification"), ("challenge", JValue.str "xyz")]
      = "xyz" := by
    simp [challenge_text, lookup_last, py_str]
  rw [this]

/- ------------------------------------------------------------------ -/
/- C9                                                                  -/
/- ------------------------------------------------------------------ -/

/-- C9: a `POST /watch` naming a plugin without a registered watch
handler is rejected with a 404 error message and leaves the hub (in
particular the watch store) unchanged, even when both fields are present
and non-empty. -/
theorem watch_post_unknown_plugin
    (handlers : List String) (p u : String) (now : Nat) (hub : Hub)
    (hp : py_strip p ≠ "") (hu : py_strip u ≠ "") (hh : py_strip p ∉ handlers) :
    handle_watch_post handlers
        (some (JValue.obj [("plugin", JValue.str p), ("url", JValue.str u)]))
        now hub
      = (HResp.jsonR 404
          (JValue.obj [("error", JValue.str ("no watch handler for plugin " ++ py_strip p))]),
         hub) := by
  simp [handle_watch_post, j_str_or, lookup_last, hp, hu, hh]

/-- Witness for C9 at a concrete input: no plugin has a watch handler,
so adding a watch for `"ghpr"` is a 404 and stores nothing. -/
theorem watch_post_unknown_plugin_witness :
    handle_watch_post []
        (some (JValue.obj [("plugin", JValue.str "ghpr"), ("url", JValue.str "u1")]))
        3 Hub.init
      = (HResp.jsonR 404
          (JValue.obj [("error", JValue.str "no watch handler for plugin ghpr")]),
         Hub.init) := by
  have h := watch_post_unknown_plugin [] "ghpr" "u1" 3 Hub.init
    (by decide) (by decide) (by simp)
  simpa using h

/- ------------------------------------------------------------------ -/
/- C7                                                                  -/
/- ------------------------------------------------------------------ -/

/-- C7: adding the same watch `(plugin, url)` twice reports
`added = true` then `added = false`, and the plugin's add handler is
invoked exactly once across the two requests; deleting a watch that is
not stored reports `removed = false` and invokes no remove handler. -/
theorem watch_idempotence :
    (∀ (handlers : List String) (p u : String) (now1 now2 : Nat) (hub : Hub),
      py_strip p ≠ "" → py_strip u ≠ "" → py_strip p ∈ handlers →
      hub.store.watches.any
        (fun w => w.plugin == py_strip p && w.url == py_strip u) = false →
      (handle_watch_post handlers
          (some (JValue.obj [("plugin", JValue.str p), ("url", JValue.str u)]))
          now1 hub).1
        = HResp.jsonR 200
            (JValue.obj [("ok", JValue.bool true), ("added", JValue.bool true)])
      ∧ (handle_watch_post handlers
          (some (JValue.obj [("plugin", JValue.str p), ("url", JValue.str u)]))
          now2
          (handle_watch_post handlers
            (some (JValue.obj [("plugin", JValue.str p), ("url", JValue.str u)]))
            now1 hub).2).1
        = HResp.jsonR 200
            (JValue.obj [("ok", JValue.bool true), ("added", JValue.bool false)])
      ∧ (handle_watch_post handlers
          (some (JValue.obj [("plugin", JValue.str p), ("url", JValue.str u)]))
          now2
          (handle_watch_post handlers
            (some (JValue.obj [("plugin", JValue.str p), ("url", JValue.str u)]))
            now1 hub).2).2.add_calls
        = hub.add_calls ++ [(py_strip p, py_strip u)])
    ∧ (∀ (handlers : List String) (p u : String) (hub : Hub),
      py_strip p ≠ "" → py_strip u ≠ "" →
      hub.store.watches.any
        (fun w => w.plugin == py_strip p && w.url == py_strip u) = false →
      (handle_watch_delete handlers
          (some (JValue.obj [("plugin", JValue.str p), ("url", JValue.str u)]))
          hub).1
        = HResp.jsonR 200
            (JValue.obj [("ok", JValue.bool true), ("removed", JValue.bool false)])
      ∧ (handle_watch_delete handlers
          (some (JValue.obj [("plugin", JValue.str p), ("url", JValue.str u)]))
          hub).2.remove_calls
        = hub.remove_calls) := by
  constructor
  · intro handlers p u now1 now2 hub hp hu hmem habs
    have haw1 : add_watch (py_strip p) (py_strip u) now1 hub.store.watches
        = (true, hub.store.watches ++
            [{ plugin := py_strip p, url := py_strip u, created_at := now1 }]) := by
      simp [add_watch, habs]
    have h1 : handle_watch_post handlers
        (some (JValue.obj [("plugin", JValue.str p), ("url", JValue.str u)]))
        now1 hub
      = (HResp.jsonR 200
          (JValue.obj [("ok", JValue.bool true), ("added", JValue.bool true)]),
         { hub with
             store := { hub.store with
               watches := hub.store.watches ++
                 [{ plugin := py_strip p, url := py_strip u, created_at := now1 }] },
             add_calls := hub.add_calls ++ [(py_strip p, py_strip u)] }) := by
      simp [handle_watch_post, j_str_or, lookup_last, hp, hu, hmem, haw1]
    rw [h1]
    have haw2 : add_watch (py_strip p) (py_strip u) now2
        (hub.store.watches ++
          [{ plugin := py_strip p, url := py_strip u, created_at := now1 }])
        = (false, hub.store.watches ++
            [{ plugin := py_strip p, url := py_strip u, created_at := now1 }]) := by
      simp [add_watch, List.any_append]
    refine ⟨rfl, ?_, ?_⟩ <;>
      simp [handle_watch_post, j_str_or, lookup_last, hp, hu, hmem, haw2]
  · intro handlers p u hub hp hu habs
    have hrw : remove_watch (py_strip p) (py_strip u) hub.store.watches
        = (false, hub.store.watches.filter
            (fun w => !(w.plugin == py_strip p && w.url == py_strip u))) := by
      simp [remove_watch, habs]
    constructor <;>
      simp [handle_watch_delete, j_str_or, lookup_last, hp, hu, hrw]

/-- Witness for C7 at a concrete input: plugin `"ghpr"` (with a
registered handler), url `"u1"`, fresh hub. -/
theorem watch_idempotence_witness :
    (handle_watch_post ["ghpr"]
        (some (JValue.obj [("plugin", JValue.str "ghpr"), ("url", JValue.str "u1")]))
        1
        (handle_watch_post ["ghpr"]
          (some (JValue.obj [("plugin", JValue.str "ghpr"), ("url", JValue.str "u1")]))
          0 Hub.init).2).1
      = HResp.jsonR 200
          (JValue.obj [("ok", JValue.bool true), ("added", JValue.bool false)])
    ∧ (handle_watch_post ["ghpr"]
        (some (JValue.obj [("plugin", JValue.str "ghpr"), ("url", JValue.str "u1")]))
        1
        (handle_watch_post ["ghpr"]
          (some (JValue.obj [("plugin", JValue.str "ghpr"), ("url", JValue.str "u1")]))
          0 Hub.init).2).2.add_calls
      = Hub.init.add_calls ++ [(py_strip "ghpr", py_strip "u1")] := by
  have h := watch_idempotence.1 ["ghpr"] "ghpr" "u1" 0 1 Hub.init
    (by decide) (by decide) (by decide) (by rfl)
  exact ⟨h.2.1, h.2.2⟩

/- ------------------------------------------------------------------ -/
/- C6                                                                  -/
/- ------------------------------------------------------------------ -/

/-- C6: every drain of the events queue returns its rows ordered by
`(received_at ASC, id ASC)`, and every drain of the responses queue and
every ledger query returns its rows ordered by `id ASC` — for every
store state, hence regardless of how concurrent inserts were
interleaved. -/
theorem drain_ordering :
    (∀ (src : Option String) (s : Store), List.Sorted eventLe (pick_events src s).1)
    ∧ (∀ (src : Option String) (s : Store), List.Sorted respLe (pick_responses src s).1)
    ∧ (∀ (since_id : Int) (agent_id entry_type tag : Option String) (limit : Int)
        (s : Store),
      List.Sorted ledgerLe (query_ledger since_id agent_id entry_type tag limit s)) := by
  refine ⟨?_, ?_, ?_⟩
  · intro src s
    exact List.sorted_insertionSort eventLe _
  · intro src s
    exact List.sorted_insertionSort respLe _
  · intro since_id agent_id entry_type tag limit s
    unfold query_ledger
    by_cases h : limit < 0
    · simp only [h, if_true]
      exact List.sorted_insertionSort ledgerLe _
    · simp only [h, if_false]
      exact (List.sorted_insertionSort ledgerLe _).sublist (List.take_sublist _ _)

/- ------------------------------------------------------------------ -/
/- C8                                                                  -/
/- ------------------------------------------------------------------ -/

theorem poll_until_empty {β : Type} (pick : Store → List β) (later : Nat → Store)
    (h : ∀ i, pick (later i) = []) :
    ∀ (fuel j : Nat), poll_until pick later fuel j = [] := by
  intro fuel
  induction fuel with
  | zero => intro j; rfl
  | succ n ih =>
      intro j
      simp [poll_until, h j, ih (j + 1)]

/-- C8: the `GET /responses` and `GET /ledger` waits are bounded — 120
seconds by default for responses (overridable through the `timeout`
query parameter), a fixed 30 seconds for the ledger; a deadline that
elapses with nothing found yields the normal result `[]` (the handlers
are total functions — no error path exists), and without `wait` the
handlers return the immediate (possibly empty) drain/query result. -/
theorem bounded_wait_responses_ledger :
    responses_default_timeout_seconds = 120
    ∧ (∀ t, responses_timeout (some t) = t)
    ∧ responses_timeout none = 120
    ∧ ledger_wait_seconds = 30
    ∧ (∀ (p : Option Nat) (src : Option String) (s : Store) (later : Nat → Store),
        handle_responses false p src s later = (pick_responses src s).1)
    ∧ (∀ (p : Option Nat) (src : Option String) (s : Store) (later : Nat → Store),
        (pick_responses src s).1 = [] →
        (∀ i, (pick_responses src (later i)).1 = []) →
        handle_responses true p src s later = [])
    ∧ (∀ (since_id : Int) (a et tg : Option String) (limit : Int) (s : Store)
        (later : Nat → Store),
        handle_ledger_get since_id a et tg limit false s later
          = query_ledger since_id a et tg limit s)
    ∧ (∀ (since_id : Int) (a et tg : Option String) (limit : Int) (s : Store)
        (later : Nat → Store),
        query_ledger since_id a et tg limit s = [] →
        (∀ i, query_ledger since_id a et tg limit (later i) = []) →
        handle_ledger_get since_id a et tg limit true s later = []) := by
  refine ⟨rfl, fun t => rfl, rfl, rfl, ?_, ?_, ?_, ?_⟩
  · intro p src s later
    simp [handle_responses]
  · intro p src s later h hall
    have he := poll_until_empty (fun st => (pick_responses src st).1) later hall
      (responses_timeout p) 0
    simp [handle_responses, h, he]
  · intro since_id a et tg limit s later
    simp [handle_ledger_get]
  · intro since_id a et tg limit s later h hall
    have he := poll_until_empty
      (fun st => query_ledger since_id a et tg limit st) later hall
      ledger_wait_seconds 0
    simp [handle_ledger_get, h, he]

/-- Witness for C8 at a concrete input: an always-empty store makes the
waiting responses handler and the waiting ledger handler return `[]`,
and a no-wait call returns the immediate drain. -/
theorem bounded_wait_responses_ledger_witness :
    handle_responses false none none Store.init (fun _ => Store.init)
      = (pick_responses none Store.init).1
    ∧ handle_responses true none none Store.init (fun _ => Store.init) = []
    ∧ handle_ledger_get 0 none none none 100 true Store.init (fun _ => Store.init)
      = [] :=
  ⟨bounded_wait_responses_ledger.2.2.2.2.1 none none Store.init (fun _ => Store.init),
   bounded_wait_responses_ledger.2.2.2.2.2.1 none none Store.init (fun _ => Store.init)
     rfl (fun i => rfl),
   bounded_wait_responses_ledger.2.2.2.2.2.2.2 0 none none none 100 Store.init
     (fun _ => Store.init) rfl (fun i => rfl)⟩

/- ------------------------------------------------------------------ -/
/- C1 toolkit — events side                                            -/
/- ------------------------------------------------------------------ -/

theorem pick_events_fst (src : Option String) (s : Store) :
    (pick_events src s).1 = List.insertionSort eventLe
      (s.events.filter (fun r => !r.picked_up && matches_src src r.source)) := rfl

theorem pick_events_snd_events (src : Option String) (s : Store) :
    (pick_events src s).2.events = s.events.map
      (fun r => if r.id ∈ (pick_events src s).1.map (fun r => r.id) then
        { r with picked_up := true } else r) := rfl

theorem pick_events_perm (src : Option String) (s : Store) :
    (pick_events src s).1.Perm
      (s.events.filter (fun r => !r.picked_up && matches_src src r.source)) :=
  List.perm_insertionSort eventLe _

theorem pick_events_mem (src : Option String) (s : Store) (r : EventRow) :
    r ∈ (pick_events src s).1 ↔
      r ∈ s.events ∧ (!r.picked_up && matches_src src r.source) = true := by
  rw [(pick_events_perm src s).mem_iff, List.mem_filter]

theorem event_ids_pick (src : Option String) (s : Store) :
    event_ids (pick_events src s).2 = event_ids s := by
  unfold event_ids
  rw [pick_events_snd_events, List.map_map]
  congr 1
  funext r
  by_cases h : r.id ∈ (pick_events src s).1.map (fun r => r.id) <;>
    simp [Function.comp, h]

theorem pick_events_next (src : Option String) (s : Store) :
    (pick_events src s).2.next_event = s.next_event := rfl

theorem pick_events_responses (src : Option String) (s : Store) :
    (pick_events src s).2.responses = s.responses := rfl

theorem pick_events_next_resp (src : Option String) (s : Store) :
    (pick_events src s).2.next_resp = s.next_resp := rfl

theorem pick_events_marks (src : Option String) (s : Store) (i : Nat)
    (h : i ∈ (pick_events src s).1.map (fun r => r.id)) :
    picked_in (pick_events src s).2 i = true := by
  rcases List.mem_map.mp h with ⟨r, hr, hid⟩
  have hmem : r ∈ s.events := ((pick_events_mem src s r).mp hr).1
  rw [picked_in, List.any_eq_true]
  refine ⟨{ r with picked_up := true }, ?_, ?_⟩
  · rw [pick_events_snd_events]
    have : (if r.id ∈ (pick_events src s).1.map (fun r => r.id) then
        { r with picked_up := true } else r) = { r with picked_up := true } := by
      rw [if_pos (hid ▸ h)]
    exact this ▸ List.mem_map_of_mem _ hmem
  · simp [hid]

theorem pick_events_unpicked (src : Option String) (s : Store) (i : Nat)
    (h : i ∈ (pick_events src s).1.map (fun r => r.id)) :
    ∃ r ∈ s.events, r.id = i ∧ r.picked_up = false := by
  rcases List.mem_map.mp h with ⟨r, hr, hid⟩
  rcases (pick_events_mem src s r).mp hr with ⟨hmem, hprop⟩
  refine ⟨r, hmem, hid, ?_⟩
  have hp : (!r.picked_up) = true := (Bool.and_eq_true _ _ |>.mp hprop).1
  simpa using hp

theorem pick_events_ids_nodup (src : Option String) (s : Store)
    (h : (event_ids s).Nodup) :
    ((pick_events src s).1.map (fun r => r.id)).Nodup := by
  have hperm := (pick_events_perm src s).map (fun r => r.id)
  refine hperm.nodup_iff.mpr ?_
  have hsub : ((s.events.filter
      (fun r => !r.picked_up && matches_src src r.source)).map (fun r => r.id)).Sublist
      (s.events.map (fun r => r.id)) :=
    (List.filter_sublist _).map _
  exact h.sublist hsub

/- ------------------------------------------------------------------ -/
/- C1 toolkit — responses side                                         -/
/- ------------------------------------------------------------------ -/

theorem pick_responses_fst (src : Option String) (s : Store) :
    (pick_responses src s).1 = List.insertionSort respLe
      (s.responses.filter (fun r => !r.picked_up && matches_src src r.source)) := rfl

theorem pick_responses_snd_responses (src : Option String) (s : Store) :
    (pick_responses src s).2.responses = s.responses.map
      (fun r => if r.id ∈ (pick_responses src s).1.map (fun r => r.id) then
        { r with picked_up := true } else r) := rfl

theorem pick_responses_perm (src : Option String) (s : Store) :
    (pick_responses src s).1.Perm
      (s.responses.filter (fun r => !r.picked_up && matches_src src r.source)) :=
  List.perm_insertionSort respLe _

theorem pick_responses_mem (src : Option String) (s : Store) (r : RespRow) :
    r ∈ (pick_responses src s).1 ↔
      r ∈ s.responses ∧ (!r.picked_up && matches_src src r.source) = true := by
  rw [(pick_responses_perm src s).mem_iff, List.mem_filter]

theorem resp_ids_pick (src : Option String) (s : Store) :
    resp_ids (pick_responses src s).2 = resp_ids s := by
  unfold resp_ids
  rw [pick_responses_snd_responses, List.map_map]
  congr 1
  funext r
  by_cases h : r.id ∈ (pick_responses src s).1.map (fun r => r.id) <;>
    simp [Function.comp, h]

theorem pick_responses_events (src : Option String) (s : Store) :
    (pick_responses src s).2.events = s.events := rfl

theorem pick_responses_next (src : Option String) (s : Store) :
    (pick_responses src s).2.next_resp = s.next_resp := rfl

theorem pick_responses_next_event (src : Option String) (s : Store) :
    (pick_responses src s).2.next_event = s.next_event := rfl

theorem pick_responses_marks (src : Option String) (s : Store) (i : Nat)
    (h : i ∈ (pick_responses src s).1.map (fun r => r.id)) :
    rpicked_in (pick_responses src s).2 i = true := by
  rcases List.mem_map.mp h with ⟨r, hr, hid⟩
  have hmem : r ∈ s.responses := ((pick_responses_mem src s r).mp hr).1
  rw [rpicked_in, List.any_eq_true]
  refine ⟨{ r with picked_up := true }, ?_, ?_⟩
  · rw [pick_responses_snd_responses]
    have : (if r.id ∈ (pick_responses src s).1.map (fun r => r.id) then
        { r with picked_up := true } else r) = { r with picked_up := true } := by
      rw [if_pos (hid ▸ h)]
    exact this ▸ List.mem_map_of_mem _ hmem
  · simp [hid]

theorem pick_responses_unpicked (src : Option String) (s : Store) (i : Nat)
    (h : i ∈ (pick_responses src s).1.map (fun r => r.id)) :
    ∃ r ∈ s.responses, r.id = i ∧ r.picked_up = false := by
  rcases List.mem_map.mp h with ⟨r, hr, hid⟩
  rcases (pick_responses_mem src s r).mp hr with ⟨hmem, hprop⟩
  refine ⟨r, hmem, hid, ?_⟩
  have hp : (!r.picked_up) = true := (Bool.and_eq_true _ _ |>.mp hprop).1
  simpa using hp

theorem pick_responses_ids_nodup (src : Option String) (s : Store)
    (h : (resp_ids s).Nodup) :
    ((pick_responses src s).1.map (fun r => r.id)).Nodup := by
  have hperm := (pick_responses_perm src s).map (fun r => r.id)
  refine hperm.nodup_iff.mpr ?_
  have hsub : ((s.responses.filter
      (fun r => !r.picked_up && matches_src src r.source)).map (fun r => r.id)).Sublist
      (s.responses.map (fun r => r.id)) :=
    (List.filter_sublist _).map _
  exact h.sublist hsub

/- ------------------------------------------------------------------ -/
/- C1 toolkit — step lemmas                                            -/
/- ------------------------------------------------------------------ -/

theorem nodup_snoc {α : Type} (l : List α) (a : α) (h : l.Nodup) (ha : a ∉ l) :
    (l ++ [a]).Nodup := by
  simp [List.nodup_append, h, ha]

theorem wf_snoc_event (s : Store) (h : StoreWF s) (r : EventRow)
    (hid : r.id = s.next_event) :
    StoreWF { s with events := s.events ++ [r], next_event := s.next_event + 1 } := by
  obtain ⟨h1, h2, h3, h4⟩ := h
  refine ⟨?_, ?_, h3, h4⟩
  · unfold event_ids at *
    simp only [List.map_append, List.map_cons, List.map_nil]
    refine nodup_snoc _ _ h1 ?_
    intro hmem
    rcases List.mem_map.mp hmem with ⟨r', hr', hr'id⟩
    have := h2 r' hr'
    omega
  · intro r' hr'
    have hr2 : r' ∈ s.events ++ [r] := hr'
    show r'.id < s.next_event + 1
    rcases List.mem_append.mp hr2 with hl | hr
    · have := h2 r' hl; omega
    · rcases List.mem_singleton.mp hr with rfl
      omega

theorem wf_snoc_resp (s : Store) (h : StoreWF s) (r : RespRow)
    (hid : r.id = s.next_resp) :
    StoreWF { s with responses := s.responses ++ [r], next_resp := s.next_resp + 1 } := by
  obtain ⟨h1, h2, h3, h4⟩ := h
  refine ⟨h1, h2, ?_, ?_⟩
  · unfold resp_ids at *
    simp only [List.map_append, List.map_cons, List.map_nil]
    refine nodup_snoc _ _ h3 ?_
    intro hmem
    rcases List.mem_map.mp hmem with ⟨r', hr', hr'id⟩
    have := h4 r' hr'
    omega
  · intro r' hr'
    have hr2 : r' ∈ s.responses ++ [r] := hr'
    show r'.id < s.next_resp + 1
    rcases List.mem_append.mp hr2 with hl | hr
    · have := h4 r' hl; omega
    · rcases List.mem_singleton.mp hr with rfl
      omega

theorem wf_pickE (src : Option String) (s : Store) (h : StoreWF s) :
    StoreWF (pick_events src s).2 := by
  obtain ⟨h1, h2, h3, h4⟩ := h
  refine ⟨?_, ?_, ?_, ?_⟩
  · rw [event_ids_pick]; exact h1
  · intro r hr
    rw [pick_events_snd_events] at hr
    rcases List.mem_map.mp hr with ⟨r', hr', hr'eq⟩
    have hlt := h2 r' hr'
    rw [pick_events_next]
    have : r.id = r'.id := by
      rw [← hr'eq]
      by_cases hc : r'.id ∈ (pick_events src s).1.map (fun r => r.id) <;> simp [hc]
    omega
  · unfold resp_ids
    rw [pick_events_responses]
    exact h3
  · intro r hr
    rw [pick_events_responses] at hr
    rw [pick_events_next_resp]
    exact h4 r hr

theorem wf_pickR (src : Option String) (s : Store) (h : StoreWF s) :
    StoreWF (pick_responses src s).2 := by
  obtain ⟨h1, h2, h3, h4⟩ := h
  refine ⟨?_, ?_, ?_, ?_⟩
  · unfold event_ids
    rw [pick_responses_events]
    exact h1
  · intro r hr
    rw [pick_responses_events] at hr
    rw [pick_responses_next_event]
    exact h2 r hr
  · rw [resp_ids_pick]; exact h3
  · intro r hr
    rw [pick_responses_snd_responses] at hr
    rcases List.mem_map.mp hr with ⟨r', hr', hr'eq⟩
    have hlt := h4 r' hr'
    rw [pick_responses_next]
    have : r.id = r'.id := by
      rw [← hr'eq]
      by_cases hc : r'.id ∈ (pick_responses src s).1.map (fun r => r.id) <;> simp [hc]
    omega

theorem wf_step (enr : List (String × EnrichFn)) (op : Op) (s : Store)
    (h : StoreWF s) : StoreWF (step_s enr op s) := by
  cases op with
  | insEvent source ts user_id text channel etype thread_ts bot_id metadata now =>
      show StoreWF (insert_event enr source ts user_id text channel etype
        thread_ts bot_id metadata now s).2
      unfold insert_event
      by_cases hd : dup_key s source ts = true
      · simpa [hd] using h
      · simp only [Bool.not_eq_true] at hd
        simp only [hd, Bool.false_eq_true, if_false]
        exact wf_snoc_event s h _ rfl
  | insRaw source headers body now =>
      exact wf_snoc_event s h _ rfl
  | insResp event_id text source now =>
      exact wf_snoc_resp s h _ rfl
  | insLedger agent_id content entry_type did tags signature now =>
      obtain ⟨h1, h2, h3, h4⟩ := h
      exact ⟨h1, h2, h3, h4⟩
  | pickE src => exact wf_pickE src s h
  | pickR src => exact wf_pickR src s h

theorem picked_in_append (s : Store) (tail : List EventRow) (i : Nat)
    (h : picked_in s i = true) :
    (s.events ++ tail).any (fun r => r.id == i && r.picked_up) = true := by
  rw [picked_in] at h
  rw [List.any_append, h, Bool.true_or]

theorem picked_in_pickE (src : Option String) (s : Store) (i : Nat)
    (h : picked_in s i = true) :
    picked_in (pick_events src s).2 i = true := by
  rcases List.any_eq_true.mp h with ⟨r, hr, hprop⟩
  rw [picked_in, pick_events_snd_events, List.any_eq_true]
  refine ⟨(if r.id ∈ (pick_events src s).1.map (fun r => r.id) then
      { r with picked_up := true } else r), List.mem_map_of_mem _ hr, ?_⟩
  have hid : (r.id == i) = true := (Bool.and_eq_true _ _ |>.mp hprop).1
  have hpk : r.picked_up = true := (Bool.and_eq_true _ _ |>.mp hprop).2
  by_cases hc : r.id ∈ (pick_events src s).1.map (fun r => r.id) <;>
    simp [hc, hid, hpk]

theorem rpicked_in_pickR (src : Option String) (s : Store) (i : Nat)
    (h : rpicked_in s i = true) :
    rpicked_in (pick_responses src s).2 i = true := by
  rcases List.any_eq_true.mp h with ⟨r, hr, hprop⟩
  rw [rpicked_in, pick_responses_snd_responses, List.any_eq_true]
  refine ⟨(if r.id ∈ (pick_responses src s).1.map (fun r => r.id) then
      { r with picked_up := true } else r), List.mem_map_of_mem _ hr, ?_⟩
  have hid : (r.id == i) = true := (Bool.and_eq_true _ _ |>.mp hprop).1
  have hpk : r.picked_up = true := (Bool.and_eq_true _ _ |>.mp hprop).2
  by_cases hc : r.id ∈ (pick_responses src s).1.map (fun r => r.id) <;>
    simp [hc, hid, hpk]

theorem picked_in_mono (enr : List (String × EnrichFn)) (op : Op) (s : Store)
    (i : Nat) (h : picked_in s i = true) :
    picked_in (step_s enr op s) i = true := by
  cases op with
  | insEvent source ts user_id text channel etype thread_ts bot_id metadata now =>
      show picked_in (insert_event enr source ts user_id text channel etype
        thread_ts bot_id metadata now s).2 i = true
      unfold insert_event
      by_cases hd : dup_key s source ts = true
      · simpa [hd] using h
      · simp only [Bool.not_eq_true] at hd
        simp only [hd, Bool.false_eq_true, if_false]
        exact picked_in_append s _ i h
  | insRaw source headers body now => exact picked_in_append s _ i h
  | insResp event_id text source now => exact h
  | insLedger agent_id content entry_type did tags signature now => exact h
  | pickE src => exact picked_in_pickE src s i h
  | pickR src => exact h

theorem rpicked_in_mono (enr : List (String × EnrichFn)) (op : Op) (s : Store)
    (i : Nat) (h : rpicked_in s i = true) :
    rpicked_in (step_s enr op s) i = true := by
  cases op with
  | insEvent source ts user_id text channel etype thread_ts bot_id metadata now =>
      show rpicked_in (insert_event enr source ts user_id text channel etype
        thread_ts bot_id metadata now s).2 i = true
      unfold insert_event
      by_cases hd : dup_key s source ts = true
      · simpa [hd] using h
      · simp only [Bool.not_eq_true] at hd
        simp only [hd, Bool.false_eq_true, if_false]
        exact h
  | insRaw source headers body now => exact h
  | insResp event_id text source now =>
      show (s.responses ++ _).any _ = true
      rw [rpicked_in] at h
      rw [List.any_append, h, Bool.true_or]
  | insLedger agent_id content entry_type did tags signature now => exact h
  | pickE src => exact h
  | pickR src => exact rpicked_in_pickR src s i h

theorem step_out_fst (enr : List (String × EnrichFn)) (op : Op) (s : Store) :
    (step_out enr op s).1 = step_s enr op s := rfl

theorem step_out_events_ids (enr : List (String × EnrichFn)) (op : Op) (s : Store) :
    (step_out enr op s).2.1 = [] ∨
      ∃ src, op = Op.pickE src ∧
        (step_out enr op s).2.1 = (pick_events src s).1.map (fun r => r.id) := by
  cases op with
  | pickE src => exact Or.inr ⟨src, rfl, rfl⟩
  | insEvent source ts user_id text channel etype thread_ts bot_id metadata now =>
      exact Or.inl rfl
  | insRaw source headers body now => exact Or.inl rfl
  | insResp event_id text source now => exact Or.inl rfl
  | insLedger agent_id content entry_type did tags signature now => exact Or.inl rfl
  | pickR src => exact Or.inl rfl

theorem step_out_resp_ids (enr : List (String × EnrichFn)) (op : Op) (s : Store) :
    (step_out enr op s).2.2 = [] ∨
      ∃ src, op = Op.pickR src ∧
        (step_out enr op s).2.2 = (pick_responses src s).1.map (fun r => r.id) := by
  cases op with
  | pickR src => exact Or.inr ⟨src, rfl, rfl⟩
  | insEvent source ts user_id text channel etype thread_ts bot_id metadata now =>
      exact Or.inl rfl
  | insRaw source headers body now => exact Or.inl rfl
  | insResp event_id text source now => exact Or.inl rfl
  | insLedger agent_id content entry_type did tags signature now => exact Or.inl rfl
  | pickE src => exact Or.inl rfl

theorem picked_conflict (src : Option String) (s : Store) (i : Nat)
    (hwf : StoreWF s) (h : picked_in s i = true) :
    i ∉ (pick_events src s).1.map (fun r => r.id) := by
  intro hmem
  rcases pick_events_unpicked src s i hmem with ⟨r, hr, hid, hunp⟩
  rcases List.any_eq_true.mp h with ⟨r', hr', hprop⟩
  have hid' : r'.id = i := by
    have := (Bool.and_eq_true _ _ |>.mp hprop).1
    simpa using this
  have hpk : r'.picked_up = true := (Bool.and_eq_true _ _ |>.mp hprop).2
  have hnd : (s.events.map (fun r => r.id)).Nodup := hwf.1
  have heq : r = r' := List.inj_on_of_nodup_map hnd hr hr' (by rw [hid, hid'])
  rw [heq, hpk] at hunp
  exact absurd hunp (by simp)

theorem rpicked_conflict (src : Option String) (s : Store) (i : Nat)
    (hwf : StoreWF s) (h : rpicked_in s i = true) :
    i ∉ (pick_responses src s).1.map (fun r => r.id) := by
  intro hmem
  rcases pick_responses_unpicked src s i hmem with ⟨r, hr, hid, hunp⟩
  rcases List.any_eq_true.mp h with ⟨r', hr', hprop⟩
  have hid' : r'.id = i := by
    have := (Bool.and_eq_true _ _ |>.mp hprop).1
    simpa using this
  have hpk : r'.picked_up = true := (Bool.and_eq_true _ _ |>.mp hprop).2
  have hnd : (s.responses.map (fun r => r.id)).Nodup := hwf.2.2.1
  have heq : r = r' := List.inj_on_of_nodup_map hnd hr hr' (by rw [hid, hid'])
  rw [heq, hpk] at hunp
  exact absurd hunp (by simp)

theorem picked_not_drained (enr : List (String × EnrichFn)) (ops : List Op) :
    ∀ (s : Store) (i : Nat), StoreWF s → picked_in s i = true →
      i ∉ (run_acc enr ops s).2.1 := by
  induction ops with
  | nil => intro s i hwf h hmem; simp [run_acc] at hmem
  | cons op ops ih =>
      intro s i hwf h hmem
      simp only [run_acc] at hmem
      rcases List.mem_append.mp hmem with h1 | h2
      · rcases step_out_events_ids enr op s with hz | ⟨src, rfl, hid⟩
        · rw [hz] at h1; exact absurd h1 (List.not_mem_nil i)
        · rw [hid] at h1
          exact picked_conflict src s i hwf h h1
      · exact ih (step_s enr op s) i (wf_step enr op s hwf)
          (picked_in_mono enr op s i h) h2

theorem rpicked_not_drained (enr : List (String × EnrichFn)) (ops : List Op) :
    ∀ (s : Store) (i : Nat), StoreWF s → rpicked_in s i = true →
      i ∉ (run_acc enr ops s).2.2 := by
  induction ops with
  | nil => intro s i hwf h hmem; simp [run_acc] at hmem
  | cons op ops ih =>
      intro s i hwf h hmem
      simp only [run_acc] at hmem
      rcases List.mem_append.mp hmem with h1 | h2
      · rcases step_out_resp_ids enr op s with hz | ⟨src, rfl, hid⟩
        · rw [hz] at h1; exact absurd h1 (List.not_mem_nil i)
        · rw [hid] at h1
          exact rpicked_conflict src s i hwf h h1
      · exact ih (step_s enr op s) i (wf_step enr op s hwf)
          (rpicked_in_mono enr op s i h) h2

theorem run_acc_events_nodup (enr : List (String × EnrichFn)) (ops : List Op) :
    ∀ s : Store, StoreWF s → (run_acc enr ops s).2.1.Nodup := by
  induction ops with
  | nil => intro s hwf; simp [run_acc]
  | cons op ops ih =>
      intro s hwf
      simp only [run_acc]
      refine List.Nodup.append ?_ (ih _ (wf_step enr op s hwf)) ?_
      · rcases step_out_events_ids enr op s with hz | ⟨src, rfl, hid⟩
        · rw [hz]; exact List.nodup_nil
        · rw [hid]; exact pick_events_ids_nodup src s hwf.1
      · intro i h1 h2
        rcases step_out_events_ids enr op s with hz | ⟨src, rfl, hid⟩
        · rw [hz] at h1; exact absurd h1 (List.not_mem_nil i)
        · rw [hid] at h1
          have hp : picked_in (step_s enr (Op.pickE src) s) i = true :=
            pick_events_marks src s i h1
          exact picked_not_drained enr ops (step_s enr (Op.pickE src) s) i
            (wf_step enr (Op.pickE src) s hwf) hp h2

theorem run_acc_resps_nodup (enr : List (String × EnrichFn)) (ops : List Op) :
    ∀ s : Store, StoreWF s → (run_acc enr ops s).2.2.Nodup := by
  induction ops with
  | nil => intro s hwf; simp [run_acc]
  | cons op ops ih =>
      intro s hwf
      simp only [run_acc]
      refine List.Nodup.append ?_ (ih _ (wf_step enr op s hwf)) ?_
      · rcases step_out_resp_ids enr op s with hz | ⟨src, rfl, hid⟩
        · rw [hz]; exact List.nodup_nil
        · rw [hid]; exact pick_responses_ids_nodup src s hwf.2.2.1
      · intro i h1 h2
        rcases step_out_resp_ids enr op s with hz | ⟨src, rfl, hid⟩
        · rw [hz] at h1; exact absurd h1 (List.not_mem_nil i)
        · rw [hid] at h1
          have hp : rpicked_in (step_s enr (Op.pickR src) s) i = true :=
            pick_responses_marks src s i h1
          exact rpicked_not_drained enr ops (step_s enr (Op.pickR src) s) i
            (wf_step enr (Op.pickR src) s hwf) hp h2

theorem store_wf_init : StoreWF Store.init :=
  ⟨List.nodup_nil, fun r hr => absurd hr (List.not_mem_nil r),
   List.nodup_nil, fun r hr => absurd hr (List.not_mem_nil r)⟩

/- ------------------------------------------------------------------ -/
/- C1                                                                  -/
/- ------------------------------------------------------------------ -/

/-- C1: each drain of the events or responses queue returns exactly the
rows that were unpicked (and matched the optional source filter) when
the drain transaction ran, and marks those rows picked up within the
same transaction; across every transaction `picked_up` only ever goes
from `false` to `true`; and over every interleaving of transactions on a
fresh store, no event id and no response id is ever returned by two
drains. -/
theorem drain_exactly_once :
    (∀ (src : Option String) (s : Store),
      (pick_events src s).1.Perm
        (s.events.filter (fun r => !r.picked_up && matches_src src r.source))
      ∧ ∀ i ∈ (pick_events src s).1.map (fun r => r.id),
          picked_in (pick_events src s).2 i = true)
    ∧ (∀ (src : Option String) (s : Store),
      (pick_responses src s).1.Perm
        (s.responses.filter (fun r => !r.picked_up && matches_src src r.source))
      ∧ ∀ i ∈ (pick_responses src s).1.map (fun r => r.id),
          rpicked_in (pick_responses src s).2 i = true)
    ∧ (∀ (enr : List (String × EnrichFn)) (op : Op) (s : Store) (i : Nat),
        picked_in s i = true → picked_in (step_s enr op s) i = true)
    ∧ (∀ (enr : List (String × EnrichFn)) (op : Op) (s : Store) (i : Nat),
        rpicked_in s i = true → rpicked_in (step_s enr op s) i = true)
    ∧ (∀ (enr : List (String × EnrichFn)) (ops : List Op),
        (run_acc enr ops Store.init).2.1.Nodup
        ∧ (run_acc enr ops Store.init).2.2.Nodup) :=
  ⟨fun src s => ⟨pick_events_perm src s, fun i hi => pick_events_marks src s i hi⟩,
   fun src s => ⟨pick_responses_perm src s, fun i hi => pick_responses_marks src s i hi⟩,
   picked_in_mono,
   rpicked_in_mono,
   fun enr ops => ⟨run_acc_events_nodup enr ops Store.init store_wf_init,
     run_acc_resps_nodup enr ops Store.init store_wf_init⟩⟩

/-- The single unpicked event of the demo store of the witnesses. -/
def demo_event : EventRow :=
  { id := 1, source := "slack", ts := "", user_id := "", text := "hi",
    channel := "", etype := "", thread_ts := "", bot_id := "", metadata := none,
    associations := none, picked_up := false, received_at := 3 }

/-- The same row after pickup. -/
def demo_event_picked : EventRow := { demo_event with picked_up := true }

/-- A store holding the single unpicked demo event. -/
def demo_store : Store :=
  { events := [demo_event], next_event := 2, responses := [], next_resp := 1,
    ledger := [], next_ledger := 1, watches := [] }

/-- A store holding the demo event already picked up. -/
def demo_store_picked : Store :=
  { events := [demo_event_picked], next_event := 2, responses := [], next_resp := 1,
    ledger := [], next_ledger := 1, watches := [] }

/-- Witness for C1 at concrete inputs: draining `demo_store` marks event
1 picked, and a later raw insert keeps it picked. -/
theorem drain_exactly_once_witness :
    picked_in (pick_events none demo_store).2 1 = true
    ∧ picked_in (step_s [] (Op.insRaw "x" none "body" 9) demo_store_picked) 1 = true :=
  ⟨(drain_exactly_once.1 none demo_store).2 1 (by decide),
   drain_exactly_once.2.2.1 [] (Op.insRaw "x" none "body" 9) demo_store_picked 1
     (by decide)⟩

/- ------------------------------------------------------------------ -/
/- C3 toolkit                                                          -/
/- ------------------------------------------------------------------ -/

theorem find_pending_none_iff (src : Option String) (trace : List Store) :
    find_pending src trace = none ↔ ∀ s ∈ trace, pending_count src s = 0 := by
  induction trace with
  | nil => simp [find_pending]
  | cons s rest ih =>
      by_cases h : pending_count src s = 0
      · simp [find_pending, h, ih]
      · simp [find_pending, h]

theorem find_pending_some (src : Option String) (trace : List Store) (s : Store)
    (h : find_pending src trace = some s) : pending_count src s ≠ 0 := by
  induction trace with
  | nil => simp [find_pending] at h
  | cons t rest ih =>
      by_cases ht : pending_count src t = 0
      · rw [find_pending, if_neg (by simp [ht])] at h
        exact ih h
      · rw [find_pending, if_pos (by simp [ht])] at h
        rw [← Option.some_inj.mp h]
        exact ht

theorem insert_step_keeps_event (enr : List (String × EnrichFn)) (op : Op)
    (s : Store) (r : EventRow) (hop : op.is_insert = true) (hr : r ∈ s.events) :
    r ∈ (step_s enr op s).events := by
  cases op with
  | insEvent source ts user_id text channel etype thread_ts bot_id metadata now =>
      show r ∈ (insert_event enr source ts user_id text channel etype
        thread_ts bot_id metadata now s).2.events
      unfold insert_event
      by_cases hd : dup_key s source ts = true
      · simpa [hd] using hr
      · simp only [Bool.not_eq_true] at hd
        simp only [hd, Bool.false_eq_true, if_false]
        exact List.mem_append_left _ hr
  | insRaw source headers body now => exact List.mem_append_left _ hr
  | insResp event_id text source now => exact hr
  | insLedger agent_id content entry_type did tags signature now => exact hr
  | pickE src => exact absurd hop (by simp [Op.is_insert])
  | pickR src => exact absurd hop (by simp [Op.is_insert])

theorem insert_run_keeps_event (enr : List (String × EnrichFn)) (ops : List Op) :
    ∀ (s : Store) (r : EventRow), (∀ op ∈ ops, op.is_insert = true) →
      r ∈ s.events → r ∈ (run_s enr ops s).events := by
  induction ops with
  | nil => intro s r _ hr; exact hr
  | cons op ops ih =>
      intro s r hall hr
      exact ih (step_s enr op s) r (fun o ho => hall o (List.mem_cons_of_mem _ ho))
        (insert_step_keeps_event enr op s r (hall op (List.mem_cons_self _ _)) hr)

theorem pending_pos_witness (src : Option String) (s : Store)
    (h : pending_count src s ≠ 0) :
    ∃ r ∈ s.events, (!r.picked_up && matches_src src r.source) = true := by
  unfold pending_count at h
  rcases List.exists_mem_of_length_pos (Nat.pos_of_ne_zero h) with ⟨r, hr⟩
  exact ⟨r, (List.mem_filter.mp hr).1, (List.mem_filter.mp hr).2⟩

theorem pick_events_nonempty (src : Option String) (s : Store)
    (h : pending_count src s ≠ 0) : (pick_events src s).1 ≠ [] := by
  intro hnil
  have hlen := (pick_events_perm src s).length_eq
  rw [hnil] at hlen
  exact h (by rw [pending_count, ← hlen]; rfl)

/- ------------------------------------------------------------------ -/
/- C3                                                                  -/
/- ------------------------------------------------------------------ -/

/-- C3: the waiting branch of `GET /events` has no deadline — its wait
loop returns control only when a matching pending event exists (over any
finite prefix of its pending checks it keeps waiting exactly as long as
every observed snapshot is empty), then pauses the fixed 500 ms burst
window, and the subsequent drain is non-empty provided only inserts ran
in between (no competing drain); the non-waiting branch drains
immediately and is empty exactly when nothing is pending. -/
theorem events_wait_never_empty :
    burst_sleep_ms = 500
    ∧ (∀ (src : Option String) (trace : List Store),
        find_pending src trace = none ↔ ∀ s ∈ trace, pending_count src s = 0)
    ∧ (∀ (enr : List (String × EnrichFn)) (src : Option String)
        (trace : List Store) (s s' : Store),
        find_pending src trace = some s →
        insert_reachable enr s s' →
        (pick_events src s').1 ≠ [])
    ∧ (∀ (src : Option String) (s : Store),
        (pick_events src s).1 = [] ↔ pending_count src s = 0) := by
  refine ⟨rfl, find_pending_none_iff, ?_, ?_⟩
  · intro enr src trace s s' hfind hreach
    rcases hreach with ⟨ops, hall, hrun⟩
    have hp := find_pending_some src trace s hfind
    rcases pending_pos_witness src s hp with ⟨r, hr, hprop⟩
    have hr' : r ∈ s'.events := by
      rw [← hrun]
      exact insert_run_keeps_event enr ops s r hall hr
    apply pick_events_nonempty src s'
    intro hzero
    have : s'.events.filter (fun r => !r.picked_up && matches_src src r.source) = [] :=
      List.length_eq_zero.mp hzero
    have hmem : r ∈ s'.events.filter (fun r => !r.picked_up && matches_src src r.source) :=
      List.mem_filter.mpr ⟨hr', hprop⟩
    rw [this] at hmem
    exact absurd hmem (List.not_mem_nil r)
  · intro src s
    constructor
    · intro h
      by_contra hne
      exact pick_events_nonempty src s hne h
    · intro h
      have hlen := (pick_events_perm src s).length_eq
      have : (pick_events src s).1.length = 0 := by
        rw [hlen]; exact h
      exact List.length_eq_zero.mp this

/-- Witness for C3 at a concrete input: the wait loop sees an empty
snapshot then the demo store, and the drain after an empty insert run is
non-empty. -/
theorem events_wait_never_empty_witness :
    (pick_events none demo_store).1 ≠ [] :=
  events_wait_never_empty.2.2.1 [] none [Store.init, demo_store] demo_store demo_store
    (by decide) ⟨[], by simp, rfl⟩
